import Mathlib

/-!
Verification development for the media-track analysis core of this
repository: the subtitle ingestion/conversion engine
(SubtitleManager.js) and the audio-track multi-method detector
(AudioTrackManager in Addons.js).  JavaScript numbers are modelled as
rationals with an explicit NaN; JavaScript strings as Lean strings;
values that may be a number or a string (cue timestamps after format
conversion) as the sum type JSVal; functions that can throw as Except.
-/

/-- JavaScript whitespace characters relevant to the regex class \s and
to String.prototype.trim (ASCII subset; the inputs in this development
are ASCII). -/
def jsIsWs (c : Char) : Bool :=
  c = ' ' || c = '\t' || c = '\n' || c = '\r' || c = '\x0b' || c = '\x0c'

/-- Digit test for the regex class \d. -/
def jsIsDigit (c : Char) : Bool :=
  '0' ≤ c && c ≤ '9'

/-- String.prototype.trim on a character list. -/
def jsTrimList (cs : List Char) : List Char :=
  ((cs.dropWhile jsIsWs).reverse.dropWhile jsIsWs).reverse

/-- String.prototype.trim. -/
def jsTrim (s : String) : String :=
  (jsTrimList s.data).asString

/-- ASCII lower-casing, as used by String.prototype.toLowerCase and by
case-insensitive regex matching on the ASCII patterns of the source. -/
def jsLowerChar (c : Char) : Char :=
  if 'A' ≤ c && c ≤ 'Z' then Char.ofNat (c.toNat + 32) else c

/-- String.prototype.toLowerCase on a character list. -/
def jsLowerList (cs : List Char) : List Char :=
  cs.map jsLowerChar

/-- Substring containment (String.prototype.includes / an unanchored
regex literal). -/
def listContainsSub (pat cs : List Char) : Bool :=
  cs.tails.any (fun t => pat.isPrefixOf t)

/-- parseInt: skip leading whitespace, optional sign, then a maximal
digit prefix; NaN (none) when no digit is found. -/
def jsParseInt (s : String) : Option Int :=
  let cs := s.data.dropWhile jsIsWs
  let signed : Bool × List Char :=
    match cs with
    | '-' :: rest => (true, rest)
    | '+' :: rest => (false, rest)
    | _ => (false, cs)
  let digits := signed.2.takeWhile jsIsDigit
  if digits = [] then none
  else
    let n := digits.foldl (fun acc c => acc * 10 + (c.toNat - '0'.toNat)) 0
    some (if signed.1 then -(n : Int) else (n : Int))

/-- ToNumber on a string (the coercion performed by arithmetic
operators): trimmed empty string is 0, otherwise an optionally signed
decimal literal that must consume the whole string; anything else
(such as a timestamp with colons) is NaN (none). -/
def jsStringToNumber (s : String) : Option ℚ :=
  let cs := jsTrimList s.data
  if cs = [] then some 0
  else
    let signed : Bool × List Char :=
      match cs with
      | '-' :: rest => (true, rest)
      | '+' :: rest => (false, rest)
      | _ => (false, cs)
    let intDigits := signed.2.takeWhile jsIsDigit
    let afterInt := signed.2.drop intDigits.length
    let fracPart : Option (List Char) :=
      match afterInt with
      | [] => some []
      | '.' :: rest =>
        let fracDigits := rest.takeWhile jsIsDigit
        if rest.drop fracDigits.length = [] then some fracDigits else none
      | _ => none
    match fracPart with
    | none => none
    | some fracDigits =>
      if intDigits = [] && fracDigits = [] then none
      else
        let ip : ℚ := (intDigits.foldl (fun acc c => acc * 10 + (c.toNat - '0'.toNat)) 0 : ℕ)
        let fp : ℚ :=
          ((fracDigits.foldl (fun acc c => acc * 10 + (c.toNat - '0'.toNat)) 0 : ℕ) : ℚ) /
            ((10 : ℚ) ^ fracDigits.length)
        let v := ip + fp
        some (if signed.1 then -v else v)

/-- A JavaScript value appearing in a cue timing field: a finite
number, NaN, or a string (the format converters of the source store
formatted timestamp strings into start and end). -/
inductive JSVal where
  | num : ℚ → JSVal
  | nan : JSVal
  | str : String → JSVal
deriving DecidableEq, Repr

/-- ToNumber coercion of a JSVal; none is NaN. -/
def JSVal.toNumber : JSVal → Option ℚ
  | JSVal.num q => some q
  | JSVal.nan => none
  | JSVal.str s => jsStringToNumber s

/-- The JavaScript < operator: lexicographic when both operands are
strings, otherwise numeric comparison that is false when either side
is NaN. -/
def jsLt (a b : JSVal) : Bool :=
  match a, b with
  | JSVal.str x, JSVal.str y => decide (x < y)
  | _, _ =>
    match a.toNumber, b.toNumber with
    | some x, some y => decide (x < y)
    | _, _ => false

/-- The JavaScript <= operator (false when either side is NaN). -/
def jsLe (a b : JSVal) : Bool :=
  match a, b with
  | JSVal.str x, JSVal.str y => decide (x ≤ y)
  | _, _ =>
    match a.toNumber, b.toNumber with
    | some x, some y => decide (x ≤ y)
    | _, _ => false

/-- The JavaScript subtraction operator, with NaN propagation. -/
def jsSub (a b : JSVal) : JSVal :=
  match a.toNumber, b.toNumber with
  | some x, some y => JSVal.num (x - y)
  | _, _ => JSVal.nan

/-- Truncation toward zero, as used by the JavaScript % operator. -/
def jsTrunc (q : ℚ) : Int :=
  if 0 ≤ q then ⌊q⌋ else -⌊-q⌋

/-- The JavaScript % operator on finite numbers (sign of the
dividend). -/
def jsModQ (a b : ℚ) : ℚ :=
  a - b * (jsTrunc (a / b) : ℚ)

example : jsModQ 7 3 = 1 := by with_unfolding_all rfl
example : jsStringToNumber "00:00:01.000" = none := by with_unfolding_all rfl
example : jsStringToNumber "12.5" = some (25 / 2) := by with_unfolding_all rfl
example : jsParseInt "01" = some 1 := by with_unfolding_all rfl

/-- Number.prototype.toString for the integral results of Math.floor;
NaN prints as "NaN". -/
def jsIntToString : Option Int → String
  | none => "NaN"
  | some i => toString i

/-- String.prototype.padStart with the pad character '0'. -/
def jsPadStartZero (n : Nat) (s : String) : String :=
  if s.length < n then (List.replicate (n - s.length) '0').asString ++ s else s

/-- Fractional decimal digits of a rational in [0,1), up to a fuel
bound. -/
def qFracDigits : Nat → ℚ → List Char
  | 0, _ => []
  | n + 1, q =>
    if q = 0 then []
    else
      let q10 := q * 10
      let d := ⌊q10⌋
      Char.ofNat ('0'.toNat + d.toNat) :: qFracDigits n (q10 - (d : ℚ))

/-- Template-literal rendering of a JavaScript number.  This
approximates the Number-to-String conversion: exact for terminating
decimal fractions of at most 20 digits, which covers every duration
the subtitle pipeline produces; no claim in this development depends
on the rendering of other values. -/
def qToString (q : ℚ) : String :=
  let sign := if q < 0 then "-" else ""
  let a := |q|
  let ip := ⌊a⌋
  let frac := qFracDigits 20 (a - (ip : ℚ))
  sign ++ toString ip ++ (if frac = [] then "" else "." ++ frac.asString)

/-- Template-literal rendering of a JSVal. -/
def jsValTemplate : JSVal → String
  | JSVal.num q => qToString q
  | JSVal.nan => "NaN"
  | JSVal.str s => s

/-- The styling bag attached to cues.  All fields are optional because
the source builds these objects incrementally (a JavaScript property
that was never assigned is absent). -/
structure Styling where
  hasHTML : Option Bool
  hasCSS : Option Bool
  tags : Option (List String)
  hasStyling : Option Bool
  enhanced : Option Bool
  timestamp : Option Int
deriving DecidableEq, Repr

/-- The empty styling object literal. -/
def Styling.empty : Styling := ⟨none, none, none, none, none, none⟩

/-- A parsed subtitle cue as built by the parsers and converters of
SubtitleManager.js.  start and «end» are JSVal because the format
converters store formatted timestamp strings into them. -/
structure Cue where
  id : Option JSVal
  start : JSVal
  «end» : JSVal
  text : String
  format : String
  originalFormat : String
  styling : Option Styling
  actor : Option String
  effect : Option String
  startFrame : Option Int
  endFrame : Option Int
  enhanced : Option Bool
deriving DecidableEq, Repr

/-- Match exactly n regex digits, returning them and the rest. -/
def matchNDigits : Nat → List Char → Option (List Char × List Char)
  | 0, cs => some ([], cs)
  | n + 1, c :: rest =>
    if jsIsDigit c then (matchNDigits n rest).map (fun p => (c :: p.1, p.2)) else none
  | _ + 1, [] => none

/-- Match a timestamp of shape dd:dd:dd(sep)ddd, as in the regexes of
detectSRTFormat, parseSRT and parseVTT; returns the matched characters
(the capture group) and the rest of the input. -/
def matchTimestamp (sep : Char) (cs : List Char) : Option (List Char × List Char) :=
  match matchNDigits 2 cs with
  | none => none
  | some (d1, r1) =>
    match r1 with
    | ':' :: r2 =>
      match matchNDigits 2 r2 with
      | none => none
      | some (d2, r3) =>
        match r3 with
        | ':' :: r4 =>
          match matchNDigits 2 r4 with
          | none => none
          | some (d3, r5) =>
            match r5 with
            | c :: r6 =>
              if c = sep then
                (matchNDigits 3 r6).map
                  (fun p => (d1 ++ ':' :: d2 ++ ':' :: d3 ++ c :: p.1, p.2))
              else none
            | [] => none
        | _ => none
    | _ => none

/-- One attempt of the SRT signature regex
(digits, then a whitespace run that must end in a newline because the
next regex atom is a digit, then time --> time) at a line start. -/
def detectSRTAt (cs : List Char) : Bool :=
  let digits := cs.takeWhile jsIsDigit
  if digits = [] then false
  else
    let r1 := cs.drop digits.length
    let ws := r1.takeWhile jsIsWs
    if ws = [] ∨ ws.getLast? ≠ some '\n' then false
    else
      let r2 := r1.drop ws.length
      match matchTimestamp ',' r2 with
      | none => false
      | some (_, r3) =>
        let r4 := r3.drop (r3.takeWhile jsIsWs).length
        match r4 with
        | '-' :: '-' :: '>' :: r5 =>
          let r6 := r5.drop (r5.takeWhile jsIsWs).length
          (matchTimestamp ',' r6).isSome
        | _ => false

/-- The suffixes of the input that start right after a newline (the
positions at which a multiline-anchored ^ may match, other than the
very beginning). -/
def tailsAfterNewline : List Char → List (List Char)
  | [] => []
  | c :: rest =>
    if c = '\n' then rest :: tailsAfterNewline rest else tailsAfterNewline rest

/-- All line-start suffixes of the input. -/
def lineStartTails (cs : List Char) : List (List Char) :=
  cs :: tailsAfterNewline cs

/-- detectSRTFormat: the multiline regex for a numbered SRT block. -/
def detectSRTFormat (content : String) : Bool :=
  (lineStartTails content.data).any detectSRTAt

/-- detectVTTFormat: trimmed content starts with WEBVTT. -/
def detectVTTFormat (content : String) : Bool :=
  "WEBVTT".data.isPrefixOf (jsTrimList content.data)

/-- detectASSFormat: case-insensitive search for a Script Info or
V4+ Styles section header. -/
def detectASSFormat (content : String) : Bool :=
  listContainsSub "[script info]".data (jsLowerList content.data) ||
    listContainsSub "[v4+ styles]".data (jsLowerList content.data)

/-- One attempt of the MicroDVD signature at a line start. -/
def detectSUBAt : List Char → Bool
  | '{' :: r1 =>
    let ds := r1.takeWhile jsIsDigit
    if ds = [] then false
    else
      match r1.drop ds.length with
      | '}' :: '{' :: r2 =>
        let ds2 := r2.takeWhile jsIsDigit
        if ds2 = [] then false
        else
          match r2.drop ds2.length with
          | '}' :: _ => true
          | _ => false
      | _ => false
  | _ => false

/-- detectSUBFormat: the multiline regex for a frame-brace line. -/
def detectSUBFormat (content : String) : Bool :=
  (lineStartTails content.data).any detectSUBAt

/-- The format detector registry, in the insertion order of
initializeFormatSupport (a JavaScript Map iterates in insertion
order); note that ass and ssa share the same detector function. -/
def formatDetectors : List (String × (String → Bool)) :=
  [("srt", detectSRTFormat), ("vtt", detectVTTFormat), ("ass", detectASSFormat),
    ("ssa", detectASSFormat), ("sub", detectSUBFormat)]

/-- detectSubtitleFormat: run the detectors in registry order and
return the first matching format (none when no signature matches).
The detectors are total, so the per-detector try/catch of the source
never fires. -/
def detectSubtitleFormat (content : String) : Option String :=
  (formatDetectors.find? (fun p => p.2 content)).map (fun p => p.1)

example : detectSubtitleFormat "1\n00:00:01,000 --> 00:00:03,000\nHello\n\n" = some "srt" := by
  with_unfolding_all rfl
example : detectSubtitleFormat "[Script Info]\n" = some "ass" := by
  with_unfolding_all rfl

/-- String.prototype.split with a single-character separator. -/
def splitOnChar (sep : Char) : List Char → List (List Char)
  | [] => [[]]
  | c :: rest =>
    let r := splitOnChar sep rest
    if c = sep then [] :: r
    else (c :: r.headD []) :: r.tail

/-- Array.prototype.join with a separator. -/
def jsJoin (sep : String) (xs : List String) : String :=
  String.intercalate sep xs

/-- parseSRTTime: split HH:MM:SS,mmm on colon and comma and combine.
The source indexes parts[2] unconditionally; its only caller hands it
regex-captured strings of exactly that shape, on which the getD
defaults below are never used.  A missing or non-numeric component
yields NaN exactly as parseInt does. -/
def parseSRTTime (timeStr : String) : JSVal :=
  let parts := (splitOnChar ':' timeStr.data).map List.asString
  let secondsParts := (splitOnChar ',' (parts.getD 2 "").data).map List.asString
  match jsParseInt (parts.getD 0 ""), jsParseInt (parts.getD 1 ""),
      jsParseInt (secondsParts.getD 0 ""), jsParseInt (secondsParts.getD 1 "") with
  | some hours, some minutes, some seconds, some milliseconds =>
    JSVal.num ((hours : ℚ) * 3600 + (minutes : ℚ) * 60 + (seconds : ℚ) + (milliseconds : ℚ) / 1000)
  | _, _, _, _ => JSVal.nan

/-- parseVTTTime: identical to parseSRTTime with a dot millisecond
separator. -/
def parseVTTTime (timeStr : String) : JSVal :=
  let parts := (splitOnChar ':' timeStr.data).map List.asString
  let secondsParts := (splitOnChar '.' (parts.getD 2 "").data).map List.asString
  match jsParseInt (parts.getD 0 ""), jsParseInt (parts.getD 1 ""),
      jsParseInt (secondsParts.getD 0 ""), jsParseInt (secondsParts.getD 1 "") with
  | some hours, some minutes, some seconds, some milliseconds =>
    JSVal.num ((hours : ℚ) * 3600 + (minutes : ℚ) * 60 + (seconds : ℚ) + (milliseconds : ℚ) / 1000)
  | _, _, _, _ => JSVal.nan

/-- One attempt of the regex \n\s*\n (the SRT block separator) at the
head of the input; returns the remainder after the match.  The greedy
whitespace run of the regex is consumed up to its last newline. -/
def blankSplitMatch? : List Char → Option (List Char)
  | [] => none
  | c :: rest =>
    if c = '\n' then
      let ws := rest.takeWhile jsIsWs
      let afterLast := ws.reverse.takeWhile (fun x => ¬ x = '\n')
      if afterLast.length = ws.length then none
      else some (rest.drop (ws.length - afterLast.length))
    else none

theorem blankSplitMatch_length {cs rem : List Char}
    (h : blankSplitMatch? cs = some rem) : rem.length < cs.length := by
  match cs with
  | [] => simp [blankSplitMatch?] at h
  | c :: rest =>
    simp only [blankSplitMatch?] at h
    split at h
    · split at h
      · exact absurd h (by simp)
      · have he : rest.drop ((rest.takeWhile jsIsWs).length -
            ((rest.takeWhile jsIsWs).reverse.takeWhile (fun x => ¬ x = '\n')).length) = rem :=
          Option.some.inj h
        have hl := congrArg List.length he
        simp only [List.length_drop] at hl
        simp only [List.length_cons]
        omega
    · exact absurd h (by simp)

/-- String.prototype.split on the regex \n\s*\n, scanning left to
right for the leftmost match. -/
def splitOnBlankAux : List Char → List Char → List (List Char)
  | [], acc => [acc.reverse]
  | c :: rest, acc =>
    match h : blankSplitMatch? (c :: rest) with
    | some rem => acc.reverse :: splitOnBlankAux rem []
    | none => splitOnBlankAux rest (c :: acc)
termination_by cs _ => cs.length
decreasing_by
  · exact blankSplitMatch_length h
  · simp only [List.length_cons]; omega

/-- content.trim().split on the blank-line regex. -/
def splitOnBlank (cs : List Char) : List (List Char) :=
  splitOnBlankAux cs []

/-- One attempt of the SRT/VTT timing-line regex
(time)\s*-->\s*(time) at a given position; returns the two captured
timestamp strings. -/
def timingMatchAt (sep : Char) (cs : List Char) : Option (String × String) :=
  match matchTimestamp sep cs with
  | none => none
  | some (t1, r1) =>
    let r2 := r1.drop (r1.takeWhile jsIsWs).length
    match r2 with
    | '-' :: '-' :: '>' :: r3 =>
      let r4 := r3.drop (r3.takeWhile jsIsWs).length
      match matchTimestamp sep r4 with
      | none => none
      | some (t2, _) => some (t1.asString, t2.asString)
    | _ => none

/-- String.prototype.match with the timing regex: the leftmost match
wins. -/
def timingMatch? (sep : Char) (s : String) : Option (String × String) :=
  (s.data.tails.filterMap (timingMatchAt sep)).head?

/-- parseSRT: split the trimmed content into blank-line-delimited
blocks; a block contributes a cue when it has at least three lines and
its second line carries a comma-millisecond timing; other blocks are
skipped. -/
def parseSRT (content : String) : List Cue :=
  let blocks := (splitOnBlank (jsTrimList content.data)).map List.asString
  blocks.foldl (fun subtitles block =>
    let lines := (splitOnChar '\n' (jsTrimList block.data)).map List.asString
    if lines.length ≥ 3 then
      match timingMatch? ',' (lines.getD 1 "") with
      | some (t1, t2) =>
        subtitles ++ [{ id := some (match jsParseInt (lines.getD 0 "") with
                          | some i => JSVal.num (i : ℚ)
                          | none => JSVal.nan),
                        start := parseSRTTime t1, «end» := parseSRTTime t2,
                        text := jsJoin "\n" (lines.drop 2),
                        format := "srt", originalFormat := "srt",
                        styling := none, actor := none, effect := none,
                        startFrame := none, endFrame := none, enhanced := none }]
      | none => subtitles
    else subtitles) []

/-- parseVTTStyling: flags set only when some text line contains an
HTML tag opener or a cue CSS selector. -/
def parseVTTStyling (textLines : List String) : Styling :=
  { hasHTML := if textLines.any (fun l => listContainsSub "<".data l.data) then some true else none,
    hasCSS := if textLines.any (fun l => listContainsSub "::cue".data l.data) then some true else none,
    tags := none, hasStyling := none, enhanced := none, timestamp := none }

/-- The text-collection condition of the parseVTT while loop: a
nonempty (after trim) line that carries no timing arrow. -/
def vttTextPred (l : String) : Bool :=
  !(jsTrim l).isEmpty && !listContainsSub "-->".data l.data

/-- The parseVTT scanning loop over the remaining lines. -/
def parseVTTAux : List String → List Cue
  | [] => []
  | l :: rest =>
    let line := jsTrim l
    if listContainsSub "-->".data line.data then
      match timingMatch? '.' line with
      | some (t1, t2) =>
        let taken := rest.takeWhile vttTextPred
        let textLines := taken.map jsTrim
        let rest2 := rest.drop taken.length
        (if textLines.length > 0 then
          [{ id := none, start := parseVTTTime t1, «end» := parseVTTTime t2,
             text := jsJoin "\n" textLines, format := "vtt", originalFormat := "vtt",
             styling := some (parseVTTStyling textLines), actor := none, effect := none,
             startFrame := none, endFrame := none, enhanced := none }]
         else []) ++ parseVTTAux rest2
      | none => parseVTTAux rest
    else parseVTTAux rest
termination_by lines => lines.length
decreasing_by
  all_goals simp only [List.length_cons, List.length_drop]
  all_goals omega

/-- parseVTT: skip a WEBVTT header line, then scan for timing lines
and collect the following nonempty lines as cue text. -/
def parseVTT (content : String) : List Cue :=
  let lines := (splitOnChar '\n' (jsTrimList content.data)).map List.asString
  parseVTTAux (if "WEBVTT".data.isPrefixOf (lines.headD "").data then lines.drop 1 else lines)

/-- All matches of the global regex \x7b([^}]+)\x7d (full match texts,
braces included), as collected by parseASSStyling. -/
def assStyleMatches : List Char → List String
  | [] => []
  | c :: rest =>
    if c = '{' then
      let content := rest.takeWhile (fun x => ¬ x = '}')
      match h : rest.drop content.length with
      | '}' :: r2 =>
        if content = [] then assStyleMatches rest
        else ('{' :: content ++ ['}']).asString :: assStyleMatches r2
      | _ => assStyleMatches rest
    else assStyleMatches rest
termination_by cs => cs.length
decreasing_by
  · simp only [List.length_cons]; omega
  · have hl := congrArg List.length h
    simp only [List.length_drop, List.length_cons] at hl
    simp only [List.length_cons]
    omega
  · simp only [List.length_cons]; omega
  · simp only [List.length_cons]; omega

/-- The global replace of \x7b[^}]*\x7d by the empty string used on
dialogue text (note the star: empty tag bodies are removed too). -/
def stripASSTags : List Char → List Char
  | [] => []
  | c :: rest =>
    if c = '{' then
      let content := rest.takeWhile (fun x => ¬ x = '}')
      match h : rest.drop content.length with
      | '}' :: r2 => stripASSTags r2
      | _ => c :: stripASSTags rest
    else c :: stripASSTags rest
termination_by cs => cs.length
decreasing_by
  · have hl := congrArg List.length h
    simp only [List.length_drop, List.length_cons] at hl
    simp only [List.length_cons]
    omega
  · simp only [List.length_cons]; omega
  · simp only [List.length_cons]; omega

/-- parseASSStyling: collect override tags from the whole line. -/
def parseASSStyling (line : String) : Styling :=
  let styleMatches := assStyleMatches line.data
  if styleMatches = [] then Styling.empty
  else { Styling.empty with tags := some styleMatches, hasStyling := some true }

/-- parseASSTime on an optional field (parts[1] or parts[2] of a
dialogue line).  Reading a property of an absent field, or indexing
parts[2] of a timestamp with fewer than three colon groups, throws in
the source; both surface here as Except.error.  A missing or
non-numeric centisecond group is NaN, as parseInt gives. -/
def parseASSTime : Option String → Except String JSVal
  | none => Except.error "TypeError: Cannot read properties of undefined"
  | some timeStr =>
    let parts := (splitOnChar ':' timeStr.data).map List.asString
    match parts.get? 2 with
    | none => Except.error "TypeError: Cannot read properties of undefined"
    | some p2 =>
      let secondsParts := (splitOnChar '.' p2.data).map List.asString
      match jsParseInt (parts.getD 0 ""), jsParseInt (parts.getD 1 ""),
          jsParseInt (secondsParts.getD 0 ""),
          (secondsParts.get? 1).bind jsParseInt with
      | some hours, some minutes, some seconds, some centiseconds =>
        Except.ok (JSVal.num ((hours : ℚ) * 3600 + (minutes : ℚ) * 60 + (seconds : ℚ) +
          (centiseconds : ℚ) / 100))
      | _, _, _, _ => Except.ok JSVal.nan

/-- The payload of a parsed Dialogue line. -/
structure ASSDialogue where
  start : JSVal
  «end» : JSVal
  text : String
  actor : String
  effect : String
  styling : Styling
deriving DecidableEq, Repr

/-- parseASSDialogue: strip the Dialogue: prefix and following
whitespace, split the remainder on commas, read the fixed field
positions (the formatLine parameter is accepted and ignored, as in the
source), and strip override tags from the display text. -/
def parseASSDialogue (line : String) (formatLine : Option String) :
    Except String (Option ASSDialogue) :=
  if "Dialogue:".data.isPrefixOf line.data then
    let after := line.data.drop 9
    let captured := after.drop (after.takeWhile jsIsWs).length
    let parts := (splitOnChar ',' captured).map List.asString
    match parseASSTime (parts.get? 1) with
    | Except.error e => Except.error e
    | Except.ok startTime =>
      match parseASSTime (parts.get? 2) with
      | Except.error e => Except.error e
      | Except.ok endTime =>
        Except.ok (some
          { start := startTime, «end» := endTime,
            text := (stripASSTags (jsJoin "," (parts.drop 9)).data).asString,
            actor := parts.getD 4 "", effect := parts.getD 5 "",
            styling := parseASSStyling line })
  else Except.ok none

/-- The line scan of parseASS: track whether the [Events] section has
been entered and the last Format: line seen; a thrown dialogue parse
error propagates out of the parser (the source has no try/catch
here). -/
def parseASSLoop : Bool → Option String → List String → Except String (List Cue)
  | _, _, [] => Except.ok []
  | inEvents, formatLine, line :: rest =>
    let trimmedLine := jsTrim line
    if trimmedLine = "[Events]" then parseASSLoop true formatLine rest
    else if inEvents then
      if "Format:".data.isPrefixOf trimmedLine.data then
        parseASSLoop inEvents (some trimmedLine) rest
      else if "Dialogue:".data.isPrefixOf trimmedLine.data then
        match parseASSDialogue trimmedLine formatLine with
        | Except.error e => Except.error e
        | Except.ok none => parseASSLoop inEvents formatLine rest
        | Except.ok (some d) =>
          match parseASSLoop inEvents formatLine rest with
          | Except.error e => Except.error e
          | Except.ok cues =>
            Except.ok
              ({ id := none, start := d.start, «end» := d.«end», text := d.text,
                 format := "ass", originalFormat := "ass", styling := some d.styling,
                 actor := some d.actor, effect := some d.effect,
                 startFrame := none, endFrame := none, enhanced := none } :: cues)
      else parseASSLoop inEvents formatLine rest
    else parseASSLoop inEvents formatLine rest

/-- parseASS: scan all lines (no trimming of the whole content). -/
def parseASS (content : String) : Except String (List Cue) :=
  parseASSLoop false none ((splitOnChar '\n' content.data).map List.asString)

/-- The anchored MicroDVD line regex
^\x7b(\d+)\x7d\x7b(\d+)\x7d\s*(.*)$, returning the two frame captures
and the text capture. -/
def subLineMatch? : List Char → Option (List Char × List Char × List Char)
  | '{' :: r1 =>
    let ds := r1.takeWhile jsIsDigit
    if ds = [] then none
    else
      match r1.drop ds.length with
      | '}' :: '{' :: r2 =>
        let ds2 := r2.takeWhile jsIsDigit
        if ds2 = [] then none
        else
          match r2.drop ds2.length with
          | '}' :: r3 => some (ds, ds2, r3.drop (r3.takeWhile jsIsWs).length)
          | _ => none
      | _ => none
  | _ => none

/-- The assumed MicroDVD frame rate of the source (23.976 fps). -/
def subFps : ℚ := 23976 / 1000

/-- parseSUB: each nonempty line matching the frame-brace pattern
becomes a cue; frame indices are divided by the fixed assumed frame
rate.  The captured frame digits always parse, so the NaN fallback
branch is unreachable. -/
def parseSUB (content : String) : List Cue :=
  ((splitOnChar '\n' content.data).map List.asString).foldl (fun subtitles line =>
    let trimmedLine := jsTrim line
    if trimmedLine = "" then subtitles
    else
      match subLineMatch? trimmedLine.data with
      | some (f1, f2, text) =>
        match jsParseInt f1.asString, jsParseInt f2.asString with
        | some startFrame, some endFrame =>
          subtitles ++
            [{ id := none,
               start := JSVal.num ((startFrame : ℚ) / subFps),
               «end» := JSVal.num ((endFrame : ℚ) / subFps),
               text := text.asString, format := "sub", originalFormat := "sub",
               styling := none, actor := none, effect := none,
               startFrame := some startFrame, endFrame := some endFrame,
               enhanced := none }]
        | _, _ => subtitles
      | none => subtitles) []

/-- A validation report: valid is the absence of errors. -/
structure ValidationResult where
  valid : Bool
  errors : List String
  warnings : List String
deriving DecidableEq, Repr

/-- The per-cue checks of validateSubtitleTiming, walking the sequence
with the zero-based index and the previous cue; every rule appends its
own message, so one cue may contribute several. -/
def validateTimingAux : Option Cue → Nat → List Cue → List String × List String
  | _, _, [] => ([], [])
  | prev, i, subtitle :: rest =>
    let errs :=
      (if jsLt subtitle.start (JSVal.num 0) || jsLt subtitle.«end» (JSVal.num 0) then
        ["Negative timing in subtitle " ++ toString (i + 1)]
      else []) ++
      (if jsLe subtitle.«end» subtitle.start then
        ["Invalid timing in subtitle " ++ toString (i + 1) ++ ": end before start"]
      else [])
    let duration := jsSub subtitle.«end» subtitle.start
    let warns :=
      (match prev with
       | some prevSubtitle =>
         if jsLt subtitle.start prevSubtitle.«end» then
           ["Overlapping subtitles at index " ++ toString i]
         else []
       | none => []) ++
      (if jsLt duration (JSVal.num (1 / 2)) then
        ["Very short duration in subtitle " ++ toString (i + 1) ++ ": " ++
          jsValTemplate duration ++ "s"]
      else []) ++
      (if jsLt (JSVal.num 10) duration then
        ["Very long duration in subtitle " ++ toString (i + 1) ++ ": " ++
          jsValTemplate duration ++ "s"]
      else [])
    let tail := validateTimingAux (some subtitle) (i + 1) rest
    (errs ++ tail.1, warns ++ tail.2)

/-- validateSubtitleTiming: collect errors and warnings over the whole
sequence; the report is valid exactly when no error was recorded. -/
def validateSubtitleTiming (subtitles : List Cue) : ValidationResult :=
  let collected := validateTimingAux none 0 subtitles
  { valid := collected.1.length = 0, errors := collected.1, warnings := collected.2 }

/-- applyEnhancedStyling: mark every cue and its styling bag as
enhanced and stamp the current time (passed explicitly here, standing
for Date.now()). -/
def applyEnhancedStyling (now : Int) (subtitles : List Cue) : List Cue :=
  subtitles.map (fun subtitle =>
    { subtitle with
      enhanced := some true,
      styling := some { (subtitle.styling.getD Styling.empty) with
        enhanced := some true, timestamp := some now } })

/-- Math.max over the values of a nonempty list (the spread call of
calculateDuration). -/
def listMaxQ (q : ℚ) (qs : List ℚ) : ℚ := qs.foldl max q

/-- Math.min over the values of a nonempty list. -/
def listMinQ (q : ℚ) (qs : List ℚ) : ℚ := qs.foldl min q

/-- calculateDuration: the span from the earliest non-NaN start to the
latest non-NaN end; 0 for an empty sequence or when either filtered
list is empty. -/
def calculateDuration (subtitles : List Cue) : ℚ :=
  if subtitles.length = 0 then 0
  else
    let startTimes := (subtitles.map (fun s => s.start.toNumber)).reduceOption
    let endTimes := (subtitles.map (fun s => s.«end».toNumber)).reduceOption
    match startTimes, endTimes with
    | [], _ => 0
    | _, [] => 0
    | s0 :: ss, e0 :: es => listMaxQ e0 es - listMinQ s0 ss

/-- convertSRTTimeToVTT: format a time value as HH:MM:SS.mmm.  The
parameter is a JSVal because convertVTTtoSRT feeds this family of
formatters whatever is stored in the cue (a string after a previous
conversion); arithmetic on a non-numeric string is NaN and prints as
NaN. -/
def convertSRTTimeToVTT (time : JSVal) : String :=
  let t := time.toNumber
  let hours := t.map (fun q => ⌊q / 3600⌋)
  let minutes := t.map (fun q => ⌊jsModQ q 3600 / 60⌋)
  let seconds := t.map (fun q => ⌊jsModQ q 60⌋)
  let milliseconds := t.map (fun q => ⌊jsModQ q 1 * 1000⌋)
  jsPadStartZero 2 (jsIntToString hours) ++ ":" ++
    jsPadStartZero 2 (jsIntToString minutes) ++ ":" ++
    jsPadStartZero 2 (jsIntToString seconds) ++ "." ++
    jsPadStartZero 3 (jsIntToString milliseconds)

/-- convertVTTTimeToSRT: the same computation with a comma before the
milliseconds. -/
def convertVTTTimeToSRT (time : JSVal) : String :=
  let t := time.toNumber
  let hours := t.map (fun q => ⌊q / 3600⌋)
  let minutes := t.map (fun q => ⌊jsModQ q 3600 / 60⌋)
  let seconds := t.map (fun q => ⌊jsModQ q 60⌋)
  let milliseconds := t.map (fun q => ⌊jsModQ q 1 * 1000⌋)
  jsPadStartZero 2 (jsIntToString hours) ++ ":" ++
    jsPadStartZero 2 (jsIntToString minutes) ++ ":" ++
    jsPadStartZero 2 (jsIntToString seconds) ++ "," ++
    jsPadStartZero 3 (jsIntToString milliseconds)

/-- convertSRTtoVTT: spread each cue, switch the format tag, and store
the formatted VTT timestamp strings into start and end. -/
def convertSRTtoVTT (srtSubtitles : List Cue) : List Cue :=
  srtSubtitles.map (fun subtitle =>
    { subtitle with
      format := "vtt",
      start := JSVal.str (convertSRTTimeToVTT subtitle.start),
      «end» := JSVal.str (convertSRTTimeToVTT subtitle.«end») })

/-- convertVTTtoSRT: spread each cue, switch the format tag, number the
cues from 1, and store the formatted SRT timestamp strings. -/
def convertVTTtoSRT (vttSubtitles : List Cue) : List Cue :=
  (vttSubtitles.enum).map (fun p =>
    { p.2 with
      format := "srt",
      id := some (JSVal.num ((p.1 : ℚ) + 1)),
      start := JSVal.str (convertVTTTimeToSRT p.2.start),
      «end» := JSVal.str (convertVTTTimeToSRT p.2.«end») })

/-- convertASStoSRT: rebuild each cue from scratch, keeping only id,
timing and text (style, actor and effect are dropped). -/
def convertASStoSRT (assSubtitles : List Cue) : List Cue :=
  (assSubtitles.enum).map (fun p =>
    { id := some (JSVal.num ((p.1 : ℚ) + 1)), start := p.2.start, «end» := p.2.«end»,
      text := p.2.text, format := "srt", originalFormat := "ass",
      styling := none, actor := none, effect := none,
      startFrame := none, endFrame := none, enhanced := none })

/-- convertSRTtoASS: rebuild each cue with empty actor, effect and
styling. -/
def convertSRTtoASS (srtSubtitles : List Cue) : List Cue :=
  srtSubtitles.map (fun subtitle =>
    { id := none, start := subtitle.start, «end» := subtitle.«end»,
      text := subtitle.text, format := "ass", originalFormat := "srt",
      styling := some Styling.empty, actor := some "", effect := some "",
      startFrame := none, endFrame := none, enhanced := none })

/-- A submitted subtitle file: name, size and decoded text content.
The FileReader/encoding-detection step of the source round-trips UTF-8
text unchanged, so content stands for the decoded text. -/
structure SubtitleFile where
  name : String
  size : Nat
deriving DecidableEq, Repr

structure SubtitleFileInput where
  name : String
  size : Nat
  content : String
deriving DecidableEq, Repr

/-- PERFORMANCE_SETTINGS.formatConversion.maxFileSize from the
ENHANCED_CONSTANTS module (bundled in
src/common/ErrorHandler/README.md): 50 * 1024 * 1024. -/
def maxFileSize : Nat := 50 * 1024 * 1024

/-- ERROR_MESSAGES.subtitleProcessing.INVALID_FORMAT from
ENHANCED_CONSTANTS. -/
def invalidFormatMessage : String := "Invalid subtitle format"

/-- validateSubtitleFile: size limit and extension allow-list.  The
extension is the lower-cased tail of the name from its last dot; a
name without a dot yields the whole name (substring of -1 + 1 in the
source), which is not in the allow-list unless it literally equals an
extension. -/
def validateSubtitleFile (file : SubtitleFileInput) : Bool :=
  if file.size > maxFileSize then false
  else
    let lower := (jsLowerList file.name.data)
    let afterDot := lower.reverse.takeWhile (fun c => ¬ c = '.')
    let fileExtension :=
      if afterDot.length = lower.length then lower.asString
      else ('.' :: afterDot.reverse).asString
    [".srt", ".vtt", ".ass", ".ssa", ".sub"].any (fun e => fileExtension = e)

/-- The parser registry of initializeFormatSupport, in insertion
order; every parser is total except parseASS, whose dialogue parsing
can throw. -/
def parsers : List (String × (String → Except String (List Cue))) :=
  [("srt", fun c => Except.ok (parseSRT c)),
   ("vtt", fun c => Except.ok (parseVTT c)),
   ("ass", parseASS),
   ("ssa", parseASS),
   ("sub", fun c => Except.ok (parseSUB c))]

/-- The metadata object of a successful processSubtitleFile result. -/
structure SubtitleMetadata where
  fileName : String
  fileSize : Nat
  format : String
  cueCount : Nat
  duration : ℚ
  validation : ValidationResult
deriving DecidableEq, Repr

/-- The outcome of processSubtitleFile: the success object or the
failure object built in its catch block. -/
inductive ProcessResult where
  | success (format : String) (subtitles : List Cue) (metadata : SubtitleMetadata)
  | failure (error : String) (fileName : String)
deriving DecidableEq, Repr

/-- processSubtitleFile: validate the file, detect the format, parse,
validate timing (advisory only: an invalid report is merely logged),
apply enhanced styling, and return the success object; any thrown
error is caught and returned as the failure object.  now stands for
Date.now() at the styling step. -/
def processSubtitleFile (now : Int) (file : SubtitleFileInput) : ProcessResult :=
  if ¬ validateSubtitleFile file then ProcessResult.failure invalidFormatMessage file.name
  else
    match detectSubtitleFormat file.content with
    | none => ProcessResult.failure "Unable to detect subtitle format" file.name
    | some format =>
      match (parsers.find? (fun p => p.1 = format)).map (fun p => p.2) with
      | none => ProcessResult.failure ("No parser available for format: " ++ format) file.name
      | some parser =>
        match parser file.content with
        | Except.error e => ProcessResult.failure e file.name
        | Except.ok subtitles =>
          let validationResult := validateSubtitleTiming subtitles
          let styledSubtitles := applyEnhancedStyling now subtitles
          ProcessResult.success format styledSubtitles
            { fileName := file.name, fileSize := file.size, format := format,
              cueCount := subtitles.length, duration := calculateDuration subtitles,
              validation := validationResult }

/-- An audio track candidate as handled by AudioTrackManager.  String
fields are optional (a JavaScript property can be absent); confidence
is always numeric, per the data model, and bitrate may be absent. -/
structure AudioTrack where
  id : Option String
  label : Option String
  lang : Option String
  codec : Option String
  channels : Option String
  bitrate : Option ℚ
  confidence : ℚ
  method : Option String
deriving DecidableEq, Repr

/-- A default candidate (used only as the getD fallback in indexed
statements). -/
def defaultAudioTrack : AudioTrack :=
  { id := none, label := none, lang := none, codec := none, channels := none,
    bitrate := none, confidence := 0, method := none }

/-- JavaScript truthiness of an optional string: present and
nonempty. -/
def truthyS (o : Option String) : Bool :=
  match o with
  | some s => !s.isEmpty
  | none => false

/-- The condition track.codec && track.codec !== 'unknown'. -/
def hasKnownCodec (track : AudioTrack) : Bool :=
  truthyS track.codec && !(decide (track.codec = some "unknown"))

/-- The condition track.channels && track.channels !== 'unknown'. -/
def hasKnownChannels (track : AudioTrack) : Bool :=
  truthyS track.channels && !(decide (track.channels = some "unknown"))

/-- The condition track.bitrate && track.bitrate > 0 (an absent or
zero bitrate is falsy). -/
def hasKnownBitrate (track : AudioTrack) : Bool :=
  match track.bitrate with
  | some b => decide (0 < b)
  | none => false

/-- The condition track.lang && track.lang !== 'und'. -/
def hasResolvedLang (track : AudioTrack) : Bool :=
  truthyS track.lang && !(decide (track.lang = some "und"))

/-- The condition track.method === 'media-source' (the source-probe
strategy). -/
def isSourceProbe (track : AudioTrack) : Bool :=
  decide (track.method = some "media-source")

/-- The condition track.method === 'web-audio' (the
frequency-analysis strategy). -/
def isFrequencyAnalysis (track : AudioTrack) : Bool :=
  decide (track.method = some "web-audio")

/-- The per-track body of calculateConfidenceScores: start from
track.confidence || 0.5 (JavaScript: a zero confidence is falsy and
falls back to 0.5), add the bonuses, subtract the penalties, clamp to
[0,1]. -/
def scoreTrack (track : AudioTrack) : ℚ :=
  let confidence : ℚ := if track.confidence = 0 then 1 / 2 else track.confidence
  let confidence := confidence + (if hasKnownCodec track then 1 / 10 else 0)
  let confidence := confidence + (if hasKnownChannels track then 1 / 10 else 0)
  let confidence := confidence + (if hasKnownBitrate track then 1 / 10 else 0)
  let confidence := confidence + (if hasResolvedLang track then 1 / 10 else 0)
  let confidence := confidence + (if isSourceProbe track then 1 / 10 else 0)
  let confidence := confidence + (if isFrequencyAnalysis track then 1 / 20 else 0)
  let confidence := confidence - (if truthyS track.label then 0 else 1 / 5)
  let confidence := confidence - (if truthyS track.id then 0 else 1 / 5)
  max 0 (min 1 confidence)

/-- calculateConfidenceScores: rewrite every track's confidence with
its own score.  (The source also writes each score into the session's
confidenceScores map keyed by track id; that map is part of the
session model below.) -/
def calculateConfidenceScores (tracks : List AudioTrack) : List AudioTrack :=
  tracks.map (fun track => { track with confidence := scoreTrack track })

/-- The net confidence adjustment of the specification, as one sum:
+0.1 known codec, +0.1 known channel layout, +0.1 known bitrate, +0.1
resolved language, +0.1 source-probe, +0.05 frequency-analysis, −0.2
missing label, −0.2 missing id. -/
def confidenceAdjustments (track : AudioTrack) : ℚ :=
  (if hasKnownCodec track then 1 / 10 else 0) +
    (if hasKnownChannels track then 1 / 10 else 0) +
    (if hasKnownBitrate track then 1 / 10 else 0) +
    (if hasResolvedLang track then 1 / 10 else 0) +
    (if isSourceProbe track then 1 / 10 else 0) +
    (if isFrequencyAnalysis track then 1 / 20 else 0) -
    ((if truthyS track.label then 0 else 1 / 5) + (if truthyS track.id then 0 else 1 / 5))

/-- The confidence formula exactly as the specification words it: the
candidate's own base confidence plus the adjustments, clamped to
[0,1]. -/
def confidenceFormulaSpec (track : AudioTrack) : ℚ :=
  max 0 (min 1 (track.confidence + confidenceAdjustments track))

/-- The amended confidence formula: as the specification's, except
that a zero (JavaScript-falsy) base confidence is replaced by 0.5, as
the code's confidence || 0.5 does. -/
def confidenceFormulaAmended (track : AudioTrack) : ℚ :=
  max 0 (min 1 ((if track.confidence = 0 then 1 / 2 else track.confidence) +
    confidenceAdjustments track))

/-- Spread of one candidate over another ({...existing, ...track}): a
present field of track wins, an absent one falls back to existing. -/
def orPresent {α : Type} (t e : Option α) : Option α :=
  match t with
  | some v => some v
  | none => e

/-- The merged record for two candidates sharing an id:
{...existing, ...track, confidence: Math.max(existing.confidence,
track.confidence)}. -/
def mergeTracks (existing track : AudioTrack) : AudioTrack :=
  { id := orPresent track.id existing.id,
    label := orPresent track.label existing.label,
    lang := orPresent track.lang existing.lang,
    codec := orPresent track.codec existing.codec,
    channels := orPresent track.channels existing.channels,
    bitrate := orPresent track.bitrate existing.bitrate,
    confidence := max existing.confidence track.confidence,
    method := orPresent track.method existing.method }

/-- Lookup in the insertion-ordered JavaScript Map, represented as an
association list with unique keys. -/
def mapGet? (m : List (Option String × AudioTrack)) (k : Option String) :
    Option AudioTrack :=
  (m.find? (fun p => decide (p.1 = k))).map (fun p => p.2)

/-- Map.prototype.set: update the entry in place when the key exists
(Map preserves insertion order on update), append otherwise. -/
def mapSet (m : List (Option String × AudioTrack)) (k : Option String)
    (v : AudioTrack) : List (Option String × AudioTrack) :=
  if m.any (fun p => decide (p.1 = k)) then
    m.map (fun p => if p.1 = k then (k, v) else p)
  else m ++ [(k, v)]

/-- The existing-track entry inserted by the first pass of
mergeDetectionResults: confidence reset to 0.5 and method set to
existing. -/
def exVersion (track : AudioTrack) : AudioTrack :=
  { track with confidence := 1 / 2, method := some "existing" }

/-- One step of the result-merging pass. -/
def mergeStep (m : List (Option String × AudioTrack)) (track : AudioTrack) :
    List (Option String × AudioTrack) :=
  match mapGet? m track.id with
  | some existing => mapSet m track.id (mergeTracks existing track)
  | none => mapSet m track.id track

/-- mergeDetectionResults(results, existingTracks): seed the map with
the existing tracks (confidence 0.5, method existing), then merge
every method's results over it, keyed by track id. -/
def mergeDetectionResults (results : List (List AudioTrack))
    (existingTracks : List AudioTrack) : List AudioTrack :=
  (results.foldl (fun m methodResults => methodResults.foldl mergeStep m)
    (existingTracks.foldl (fun m track => mapSet m track.id (exVersion track)) [])).map
      (fun p => p.2)

/-- A STATUS_INDICATORS entry of the ENHANCED_CONSTANTS module
(bundled in src/common/ErrorHandler/README.md): a status tag together
with its user-facing message. -/
structure StatusIndicator where
  status : String
  message : String
deriving DecidableEq, Repr

/-- STATUS_INDICATORS.audioDetection.IDLE. -/
def audioDetectionIDLE : StatusIndicator :=
  { status := "idle", message := "Ready to detect audio tracks" }

/-- STATUS_INDICATORS.audioDetection.DETECTING. -/
def audioDetectionDETECTING : StatusIndicator :=
  { status := "detecting", message := "Detecting audio tracks..." }

/-- STATUS_INDICATORS.audioDetection.SUCCESS. -/
def audioDetectionSUCCESS : StatusIndicator :=
  { status := "success", message := "Audio tracks detected successfully" }

/-- STATUS_INDICATORS.audioDetection.PARTIAL. -/
def audioDetectionPARTIAL : StatusIndicator :=
  { status := "partial", message := "Some audio tracks detected" }

/-- STATUS_INDICATORS.audioDetection.FAILED. -/
def audioDetectionFAILED : StatusIndicator :=
  { status := "failed", message := "Audio detection failed" }

/-- STATUS_INDICATORS.audioDetection.TIMEOUT. -/
def audioDetectionTIMEOUT : StatusIndicator :=
  { status := "timeout", message := "Audio detection timeout" }

/-- AUDIO_DETECTION_SETTINGS.maxRetries from ENHANCED_CONSTANTS. -/
def maxRetries : Nat := 3

/-- ERROR_MESSAGES.audioDetection.DETECTION_FAILED from
ENHANCED_CONSTANTS. -/
def detectionFailedMessage : String := "Audio track detection failed"

/-- ERROR_MESSAGES.audioDetection.NO_AUDIO_TRACKS from
ENHANCED_CONSTANTS. -/
def noAudioTracksMessage : String := "No audio tracks detected"

/-- The session state owned by AudioTrackManager (the fields touched
by detection and retry; timers and WebAudio handles carry no decision
logic). -/
structure DetectionSession where
  isDetecting : Bool
  retryCount : Nat
  detectionStatus : StatusIndicator
  detectedTracks : List AudioTrack
  confidenceScores : List (Option String × ℚ)
deriving DecidableEq, Repr

/-- The constructor state of AudioTrackManager. -/
def initialSession : DetectionSession :=
  { isDetecting := false, retryCount := 0, detectionStatus := audioDetectionIDLE,
    detectedTracks := [], confidenceScores := [] }

/-- The events emitted on the manager's event channel. -/
inductive AudioEvent where
  | statusChange (status : StatusIndicator)
  | tracksDetected (tracks : List AudioTrack)
  | errorEvent (type message : String) (originalError : Option String)
deriving DecidableEq, Repr

/-- The outcome of the inner multi-method pipeline
(performMultiMethodDetection followed by validateAndEnhanceTracks):
either a validated track list or a thrown error.  The pipeline talks
to browser media APIs, so it enters the model as a parameter. -/
inductive DetectionOutcome where
  | ok (validatedTracks : List AudioTrack)
  | err (message : String)
deriving DecidableEq, Repr

/-- The observable result of one detectAudioTracks call. -/
structure DetectStep where
  state : DetectionSession
  returned : List AudioTrack
  events : List AudioEvent
  retryScheduled : Bool
deriving DecidableEq, Repr

/-- handleDetectionError: mark the session failed; if retryCount is
below maxRetries, bump it and schedule a retry (the Bool result);
otherwise emit the terminal error event carrying the original
failure message. -/
def handleDetectionError (message : String) (st : DetectionSession) :
    DetectionSession × Bool × List AudioEvent :=
  let st := { st with detectionStatus := audioDetectionFAILED }
  if st.retryCount < maxRetries then
    ({ st with retryCount := st.retryCount + 1 }, true, [])
  else
    (st, false,
      [AudioEvent.errorEvent "DETECTION_FAILED" detectionFailedMessage (some message)])

/-- cleanupDetection: clear the in-progress flag (timer and media
handles carry no decision logic). -/
def cleanupDetection (st : DetectionSession) : DetectionSession :=
  { st with isDetecting := false }

/-- detectAudioTracks: the re-entrancy guard returns the caller's
existingTracks argument untouched; otherwise reset the retry counter,
mark the session detecting, run the (parameterized) pipeline, record
success or failure, and always clean up.  On success the source also
fills confidenceScores inside the pipeline; that write is part of the
opaque outcome and is modelled by the scores already carried on the
validated tracks. -/
def detectAudioTracks (outcome : DetectionOutcome) (st : DetectionSession)
    (existingTracks : List AudioTrack) : DetectStep :=
  if st.isDetecting then
    { state := st, returned := existingTracks, events := [], retryScheduled := false }
  else
    let st1 := { st with isDetecting := true, retryCount := 0,
                         detectionStatus := audioDetectionDETECTING }
    let ev0 := [AudioEvent.statusChange audioDetectionDETECTING]
    match outcome with
    | DetectionOutcome.ok validatedTracks =>
      if validatedTracks.length > 0 then
        let st2 := { st1 with detectionStatus := audioDetectionSUCCESS,
                              detectedTracks := validatedTracks,
                              confidenceScores :=
                                validatedTracks.map (fun t => (t.id, t.confidence)) }
        { state := cleanupDetection st2,
          returned := validatedTracks,
          events := ev0 ++ [AudioEvent.tracksDetected validatedTracks],
          retryScheduled := false }
      else
        { state := cleanupDetection { st1 with detectionStatus := audioDetectionFAILED },
          returned := validatedTracks,
          events := ev0 ++ [AudioEvent.errorEvent "NO_AUDIO_TRACKS" noAudioTracksMessage none],
          retryScheduled := false }
    | DetectionOutcome.err message =>
      let handled := handleDetectionError message st1
      { state := cleanupDetection handled.1,
        returned := existingTracks,
        events := ev0 ++ handled.2.2,
        retryScheduled := handled.2.1 }

/-- A chain of n failing detection attempts, each one being the
detectAudioTracks call issued by the previous attempt's scheduled
retry timer (the timer fires after cleanup, so isDetecting is false
again).  Returns the final state, the total number of retries
scheduled, and all emitted events. -/
def failChain : Nat → DetectionSession → DetectionSession × Nat × List AudioEvent
  | 0, st => (st, 0, [])
  | n + 1, st =>
    let step := detectAudioTracks (DetectionOutcome.err "Detection timeout") st []
    let rest := failChain n step.state
    (rest.1, (if step.retryScheduled then 1 else 0) + rest.2.1, step.events ++ rest.2.2)


/-- Claim C10: for every input string, the format sniffer never
returns ssa: the ass detector is registered before ssa in the fixed
iteration order and both keys use the same detection predicate, so any
content matching the ASS/SSA signature is classified as ass. -/
theorem detectSubtitleFormat_never_ssa (content : String) :
    ¬ detectSubtitleFormat content = some "ssa" := by
  unfold detectSubtitleFormat formatDetectors
  cases h1 : detectSRTFormat content <;> cases h2 : detectVTTFormat content <;>
    cases h3 : detectASSFormat content <;> cases h4 : detectSUBFormat content <;>
      simp [List.find?, h1, h2, h3, h4]

/-- Claim C8: on the exact input
"1\n00:00:01,000 --> 00:00:03,000\nHello\n\n", the sniffer classifies
the content as SRT, the SRT parser returns exactly one cue with start
1.0s, end 3.0s and text "Hello", and the validator reports the cue
sequence valid. -/
theorem srt_scenario_single_cue :
    detectSubtitleFormat "1\n00:00:01,000 --> 00:00:03,000\nHello\n\n" = some "srt" ∧
    parseSRT "1\n00:00:01,000 --> 00:00:03,000\nHello\n\n" =
      [{ id := some (JSVal.num 1), start := JSVal.num 1, «end» := JSVal.num 3,
         text := "Hello", format := "srt", originalFormat := "srt",
         styling := none, actor := none, effect := none,
         startFrame := none, endFrame := none, enhanced := none }] ∧
    (validateSubtitleTiming
      (parseSRT "1\n00:00:01,000 --> 00:00:03,000\nHello\n\n")).valid = true :=
  ⟨by with_unfolding_all rfl, by with_unfolding_all rfl, by with_unfolding_all rfl⟩

/-- Claim C1 (code bug witnessed at a concrete input): parsing the
valid SRT input "1\n00:00:01,000 --> 00:00:03,000\nHello\n\n" yields a
cue with numeric start 1 and end 3, but converting it to VTT and back
to SRT yields the timestamp string "NaN:NaN:NaN,NaN" for both start
and end: convertSRTtoVTT stores formatted strings into start/end, and
convertVTTtoSRT then performs arithmetic on those strings, which is
NaN.  Times are not round-tripped to within 1ms (they are not numbers
at all afterwards); the text is preserved exactly. -/
theorem srt_vtt_roundtrip_produces_nan :
    parseSRT "1\n00:00:01,000 --> 00:00:03,000\nHello\n\n" =
      [{ id := some (JSVal.num 1), start := JSVal.num 1, «end» := JSVal.num 3,
         text := "Hello", format := "srt", originalFormat := "srt",
         styling := none, actor := none, effect := none,
         startFrame := none, endFrame := none, enhanced := none }] ∧
    convertVTTtoSRT (convertSRTtoVTT
        (parseSRT "1\n00:00:01,000 --> 00:00:03,000\nHello\n\n")) =
      [{ id := some (JSVal.num 1), start := JSVal.str "NaN:NaN:NaN,NaN",
         «end» := JSVal.str "NaN:NaN:NaN,NaN",
         text := "Hello", format := "srt", originalFormat := "srt",
         styling := none, actor := none, effect := none,
         startFrame := none, endFrame := none, enhanced := none }] :=
  ⟨by with_unfolding_all rfl, by with_unfolding_all rfl⟩

/-- Claim C2 (counterexample): an ASS file whose structural anchor
([Events]) is entirely absent parses to an empty cue sequence, yet
processSubtitleFile reports success with cueCount 0 and no
user-visible error. -/
theorem processSubtitleFile_empty_cues_success :
    processSubtitleFile 0 { name := "a.ass", size := 10, content := "[Script Info]\n" } =
      ProcessResult.success "ass" []
        { fileName := "a.ass", fileSize := 10, format := "ass", cueCount := 0,
          duration := 0, validation := { valid := true, errors := [], warnings := [] } } := by
  with_unfolding_all rfl

/-- Claim C2 (amended): whenever the file passes validation, a format
is detected, a parser is registered for it, and that parser returns a
cue list, processSubtitleFile reports success carrying exactly that
(styled) cue list and its metadata - regardless of whether the list is
empty.  An empty cue sequence therefore never produces a user-visible
error; failures arise only from file validation, format-detection
failure, a missing parser, or a parser exception. -/
theorem processSubtitleFile_success_of_parse (now : Int) (file : SubtitleFileInput)
    (entry : String × (String → Except String (List Cue))) (subs : List Cue)
    (hval : validateSubtitleFile file = true)
    (hdet : detectSubtitleFormat file.content = some entry.1)
    (hfind : parsers.find? (fun p => p.1 = entry.1) = some entry)
    (hparse : entry.2 file.content = Except.ok subs) :
    processSubtitleFile now file =
      ProcessResult.success entry.1 (applyEnhancedStyling now subs)
        { fileName := file.name, fileSize := file.size, format := entry.1,
          cueCount := subs.length, duration := calculateDuration subs,
          validation := validateSubtitleTiming subs } := by
  unfold processSubtitleFile
  rw [hval, hdet]
  simp [hfind, hparse]

/-- Witness for the amended claim C2, at the concrete anchor-free ASS
file: all hypotheses hold and the conclusion reports success with an
empty cue list. -/
theorem processSubtitleFile_success_of_parse_witness :
    (validateSubtitleFile { name := "a.ass", size := 10, content := "[Script Info]\n" } = true ∧
      detectSubtitleFormat "[Script Info]\n" = some "ass" ∧
      parseASS "[Script Info]\n" = Except.ok ([] : List Cue)) ∧
    processSubtitleFile 7 { name := "a.ass", size := 10, content := "[Script Info]\n" } =
      ProcessResult.success "ass" (applyEnhancedStyling 7 [])
        { fileName := "a.ass", fileSize := 10, format := "ass",
          cueCount := ([] : List Cue).length, duration := calculateDuration [],
          validation := validateSubtitleTiming [] } :=
  ⟨⟨by with_unfolding_all rfl, by with_unfolding_all rfl, by with_unfolding_all rfl⟩,
    processSubtitleFile_success_of_parse 7
      { name := "a.ass", size := 10, content := "[Script Info]\n" }
      ("ass", parseASS) []
      (by with_unfolding_all rfl) (by with_unfolding_all rfl)
      (by with_unfolding_all rfl) (by with_unfolding_all rfl)⟩

/-- Claim C3 (code bug witnessed on the model): every call of
detectAudioTracks resets retryCount to 0, so in a chain of failing
attempts handleDetectionError always sees retryCount = 0 < maxRetries:
after four consecutive failing attempts the engine has scheduled four
retries (the claim allows at most three), the terminal
DETECTION_FAILED error event has never been emitted, and the retry
counter stands at 1, never having exceeded it. -/
theorem retry_chain_schedules_fourth_retry :
    (failChain 4 initialSession).2.1 = 4 ∧
    (failChain 4 initialSession).2.2.filter
      (fun e => match e with
        | AudioEvent.errorEvent t _ _ => decide (t = "DETECTION_FAILED")
        | _ => false) = [] ∧
    (failChain 4 initialSession).1.retryCount = 1 :=
  ⟨by with_unfolding_all rfl, by with_unfolding_all rfl, by with_unfolding_all rfl⟩

theorem validateTimingAux_errors_ne_nil (c : Cue) (hle : jsLe c.«end» c.start = true) :
    ∀ (cues : List Cue) (prev : Option Cue) (i : Nat), c ∈ cues →
      ¬ (validateTimingAux prev i cues).1 = [] := by
  intro cues
  induction cues with
  | nil => intro prev i hmem; cases hmem
  | cons head tail ih =>
    intro prev i hmem
    rcases List.mem_cons.mp hmem with hc | hc
    · subst hc
      simp [validateTimingAux, hle]
    · simp only [validateTimingAux]
      intro hc0
      rw [List.append_eq_nil] at hc0
      exact ih (some head) (i + 1) hc hc0.2

/-- The degenerate cue used to show that the validation rules are not
mutually exclusive: with start = end = 5 it triggers both the
inverted-span error and the too-short warning. -/
def invertedCue : Cue :=
  { id := none, start := JSVal.num 5, «end» := JSVal.num 5, text := "x",
    format := "srt", originalFormat := "srt", styling := none, actor := none,
    effect := none, startFrame := none, endFrame := none, enhanced := none }

/-- Claim C7: for every cue sequence containing a cue with end <=
start, the validator's report has valid = false and a nonempty error
list; and the rules are applied non-exclusively - the single cue with
start = end = 5 produces one error (inverted span) and one warning
(too short) at once. -/
theorem validator_flags_inverted_span (cues : List Cue) (c : Cue)
    (hmem : c ∈ cues) (hle : jsLe c.«end» c.start = true) :
    (validateSubtitleTiming cues).valid = false ∧
    ¬ (validateSubtitleTiming cues).errors = [] ∧
    (validateSubtitleTiming [invertedCue]).errors.length = 1 ∧
    (validateSubtitleTiming [invertedCue]).warnings.length = 1 := by
  have herr := validateTimingAux_errors_ne_nil c hle cues none 0 hmem
  refine ⟨?_, herr, by with_unfolding_all rfl, by with_unfolding_all rfl⟩
  unfold validateSubtitleTiming
  simp only [decide_eq_false_iff_not]
  intro h0
  exact herr (List.length_eq_zero.mp h0)

/-- Witness for claim C7 at the concrete degenerate cue. -/
theorem validator_flags_inverted_span_witness :
    (invertedCue ∈ [invertedCue] ∧ jsLe invertedCue.«end» invertedCue.start = true) ∧
    ((validateSubtitleTiming [invertedCue]).valid = false ∧
      ¬ (validateSubtitleTiming [invertedCue]).errors = [] ∧
      (validateSubtitleTiming [invertedCue]).errors.length = 1 ∧
      (validateSubtitleTiming [invertedCue]).warnings.length = 1) :=
  ⟨⟨List.mem_singleton.mpr rfl, by with_unfolding_all rfl⟩,
    validator_flags_inverted_span [invertedCue] invertedCue
      (List.mem_singleton.mpr rfl) (by with_unfolding_all rfl)⟩

/-- Claim C9 (counterexample): a call made while a detection is in
progress returns the caller-supplied existingTracks argument (here the
empty list), not the last known detection result stored in the
session. -/
def resultTrack : AudioTrack :=
  { id := some "tr1", label := some "Track 1", lang := some "eng",
    codec := some "AAC", channels := some "Stereo", bitrate := some 192,
    confidence := 9 / 10, method := some "media-source" }

/-- A session in the middle of a detection, holding a previous
result. -/
def busySession : DetectionSession :=
  { isDetecting := true, retryCount := 0,
    detectionStatus := audioDetectionDETECTING,
    detectedTracks := [resultTrack], confidenceScores := [] }

/-- Claim C9 (counterexample): the guarded call returns [], while the
last known detection result is [resultTrack]. -/
theorem detect_guard_returns_argument_not_last :
    (detectAudioTracks (DetectionOutcome.err "e") busySession []).returned = [] ∧
    busySession.detectedTracks = [resultTrack] ∧
    ¬ ([] : List AudioTrack) = [resultTrack] :=
  ⟨by with_unfolding_all rfl, rfl, by simp⟩

/-- Claim C9 (amended): a call to detectAudioTracks while isDetecting
is true is a no-op that leaves the whole session state (status,
detectedTracks, confidenceScores, retryCount, isDetecting) unchanged,
emits no events, schedules no retry, and returns the caller-passed
existingTracks argument (not the stored last detection result). -/
theorem detect_guard_noop (outcome : DetectionOutcome) (st : DetectionSession)
    (existingTracks : List AudioTrack) (h : st.isDetecting = true) :
    detectAudioTracks outcome st existingTracks =
      { state := st, returned := existingTracks, events := [], retryScheduled := false } := by
  unfold detectAudioTracks
  rw [if_pos h]

/-- Witness for the amended claim C9 at a concrete busy session. -/
theorem detect_guard_noop_witness :
    busySession.isDetecting = true ∧
    detectAudioTracks (DetectionOutcome.ok [resultTrack]) busySession [] =
      { state := busySession, returned := [], events := [], retryScheduled := false } :=
  ⟨rfl, detect_guard_noop (DetectionOutcome.ok [resultTrack]) busySession [] rfl⟩

/-- A candidate whose confidence field is exactly 0 (JavaScript-falsy)
with no known codec/channels/bitrate/language and no method, but with
label and id present. -/
def zeroConfidenceTrack : AudioTrack :=
  { id := some "a", label := some "Label", lang := none, codec := none,
    channels := none, bitrate := none, confidence := 0, method := none }

/-- Claim C4 (counterexample): for the candidate with base confidence
0, the code scores 0.5 (confidence || 0.5 replaces the falsy 0), while
the claim's formula - the candidate's own base confidence plus the
adjustments, clamped - gives 0. -/
theorem confidence_score_zero_base_counterexample :
    scoreTrack zeroConfidenceTrack = 1 / 2 ∧
    confidenceFormulaSpec zeroConfidenceTrack = 0 ∧
    ¬ scoreTrack zeroConfidenceTrack = confidenceFormulaSpec zeroConfidenceTrack :=
  ⟨by with_unfolding_all rfl, by with_unfolding_all rfl,
    by intro h; exact absurd h (by with_unfolding_all decide)⟩

/-- Claim C4 (amended): the confidence score equals the candidate's
base confidence - with 0.5 substituted when the confidence field is 0
(JavaScript-falsy) - plus +0.1 for a known codec, +0.1 for a known
channel layout, +0.1 for a known bitrate, +0.1 for a resolved
language, +0.1 for the source-probe method, +0.05 for the
frequency-analysis method, minus 0.2 for a missing label and 0.2 for a
missing id, clamped to [0,1]; the result is always in [0,1] and,
within calculateConfidenceScores, each track's new confidence depends
only on that track's own fields (position and neighbours are
irrelevant). -/
theorem confidence_score_amended (track : AudioTrack) :
    scoreTrack track = confidenceFormulaAmended track ∧
    0 ≤ scoreTrack track ∧ scoreTrack track ≤ 1 ∧
    (∀ (tracks : List AudioTrack) (i : Nat), i < tracks.length →
      (calculateConfidenceScores tracks).getD i defaultAudioTrack =
        { tracks.getD i defaultAudioTrack with
          confidence := scoreTrack (tracks.getD i defaultAudioTrack) }) := by
  refine ⟨?_, ?_, ?_, ?_⟩
  · unfold scoreTrack confidenceFormulaAmended confidenceAdjustments
    ring_nf
  · unfold scoreTrack
    exact le_max_left 0 _
  · unfold scoreTrack
    exact max_le (by norm_num) (min_le_left 1 _)
  · intro tracks i hi
    have hmap : i < (calculateConfidenceScores tracks).length := by
      simpa [calculateConfidenceScores] using hi
    rw [List.getD_eq_getElem _ _ hmap, List.getD_eq_getElem _ _ hi]
    simp [calculateConfidenceScores]

/-- Witness for the amended claim C4 at a concrete candidate. -/
theorem confidence_score_amended_witness :
    scoreTrack resultTrack = confidenceFormulaAmended resultTrack ∧
    0 ≤ scoreTrack resultTrack ∧ scoreTrack resultTrack ≤ 1 ∧
    (∀ (tracks : List AudioTrack) (i : Nat), i < tracks.length →
      (calculateConfidenceScores tracks).getD i defaultAudioTrack =
        { tracks.getD i defaultAudioTrack with
          confidence := scoreTrack (tracks.getD i defaultAudioTrack) }) :=
  confidence_score_amended resultTrack

/-- An earlier candidate with a known codec. -/
def knownCodecTrack : AudioTrack :=
  { id := some "x", label := some "A", lang := none, codec := some "DTS",
    channels := some "5.1", bitrate := some 768, confidence := 6 / 10,
    method := some "media-source" }

/-- A later candidate with the same id whose codec is the placeholder
string "unknown". -/
def unknownCodecTrack : AudioTrack :=
  { id := some "x", label := some "B", lang := none, codec := some "unknown",
    channels := none, bitrate := none, confidence := 4 / 10,
    method := some "web-audio" }

/-- Claim C6 (counterexample): merging two candidates that share an
id, where the later one carries codec "unknown" and the earlier one
carries codec "DTS", yields a merged track whose codec is "unknown":
the spread {...existing, ...track} lets any present field of the later
candidate overwrite the earlier one, including 'unknown' placeholders
and empty strings. -/
theorem merge_unknown_overwrites_known :
    knownCodecTrack.codec = some "DTS" ∧
    unknownCodecTrack.codec = some "unknown" ∧
    (mergeDetectionResults [[knownCodecTrack], [unknownCodecTrack]] []).map
      AudioTrack.codec = [some "unknown"] :=
  ⟨rfl, rfl, by with_unfolding_all rfl⟩

/-- Claim C6 (amended): when two result candidates share an id, the
merged track is the JavaScript spread of the later over the earlier -
every present field of the later candidate wins (absent fields fall
back to the earlier's), even when the later value is "unknown" or
empty - and the merged confidence is the maximum of the two
confidences. -/
theorem merge_same_id_spread (t1 t2 : AudioTrack) (h : t2.id = t1.id) :
    mergeDetectionResults [[t1], [t2]] [] = [mergeTracks t1 t2] ∧
    (mergeTracks t1 t2).confidence = max t1.confidence t2.confidence := by
  constructor
  · simp [mergeDetectionResults, mergeStep, mapGet?, mapSet, List.find?, h]
  · rfl

/-- Witness for the amended claim C6 at the two concrete candidates. -/
theorem merge_same_id_spread_witness :
    unknownCodecTrack.id = knownCodecTrack.id ∧
    (mergeDetectionResults [[knownCodecTrack], [unknownCodecTrack]] [] =
        [mergeTracks knownCodecTrack unknownCodecTrack] ∧
      (mergeTracks knownCodecTrack unknownCodecTrack).confidence =
        max knownCodecTrack.confidence unknownCodecTrack.confidence) :=
  ⟨rfl, merge_same_id_spread knownCodecTrack unknownCodecTrack rfl⟩

theorem mapSet_fresh (m : List (Option String × AudioTrack)) (k : Option String)
    (v : AudioTrack) (h : ∀ p ∈ m, ¬ p.1 = k) :
    mapSet m k v = m ++ [(k, v)] := by
  unfold mapSet
  rw [if_neg]
  intro hc
  rw [List.any_eq_true] at hc
  obtain ⟨p, hp, hpk⟩ := hc
  exact h p hp (of_decide_eq_true hpk)

theorem mapGet?_found (pre rest : List (Option String × AudioTrack)) (k : Option String)
    (w : AudioTrack) (hpre : ∀ p ∈ pre, ¬ p.1 = k) :
    mapGet? (pre ++ (k, w) :: rest) k = some w := by
  unfold mapGet?
  rw [List.find?_append]
  have h1 : pre.find? (fun p => decide (p.1 = k)) = none := by
    rw [List.find?_eq_none]
    intro p hp
    simpa using hpre p hp
  rw [h1]
  simp [List.find?]

theorem mapSet_found (pre rest : List (Option String × AudioTrack)) (k : Option String)
    (w v : AudioTrack) (hpre : ∀ p ∈ pre, ¬ p.1 = k)
    (hrest : ∀ p ∈ rest, ¬ p.1 = k) :
    mapSet (pre ++ (k, w) :: rest) k v = pre ++ (k, v) :: rest := by
  unfold mapSet
  rw [if_pos]
  · rw [List.map_append]
    congr 1
    · conv_rhs => rw [show pre = pre.map id from (List.map_id pre).symm]
      apply List.map_congr_left
      intro p hp
      simp [hpre p hp]
    · simp only [List.map_cons, if_pos rfl]
      congr 1
      conv_rhs => rw [show rest = rest.map id from (List.map_id rest).symm]
      apply List.map_congr_left
      intro p hp
      simp [hrest p hp]
  · rw [List.any_eq_true]
    exact ⟨(k, w), by simp, by simp⟩

theorem foldl_exPass :
    ∀ (A : List AudioTrack) (acc : List (Option String × AudioTrack)),
      (A.map AudioTrack.id).Nodup →
      (∀ p ∈ acc, ¬ p.1 ∈ A.map AudioTrack.id) →
      A.foldl (fun m track => mapSet m track.id (exVersion track)) acc =
        acc ++ A.map (fun t => (t.id, exVersion t)) := by
  intro A
  induction A with
  | nil => intro acc _ _; simp
  | cons t A ih =>
    intro acc hnd hdisj
    have hnd' : (A.map AudioTrack.id).Nodup := (List.nodup_cons.mp (by simpa using hnd)).2
    have hhead : ¬ t.id ∈ A.map AudioTrack.id := (List.nodup_cons.mp (by simpa using hnd)).1
    simp only [List.foldl_cons, List.map_cons]
    rw [mapSet_fresh acc t.id (exVersion t)
      (fun p hp hk => hdisj p hp (by simp [hk]))]
    rw [ih (acc ++ [(t.id, exVersion t)]) hnd' ?_]
    · simp
    · intro p hp
      rcases List.mem_append.mp hp with hp1 | hp2
      · intro hin
        exact hdisj p hp1 (by simp [hin])
      · intro hin
        have hpeq : p = (t.id, exVersion t) := by simpa using hp2
        rw [hpeq] at hin
        exact hhead hin

theorem foldl_mergePass :
    ∀ (B : List AudioTrack) (g : AudioTrack → AudioTrack)
      (pre : List (Option String × AudioTrack)),
      (B.map AudioTrack.id).Nodup →
      (∀ p ∈ pre, ¬ p.1 ∈ B.map AudioTrack.id) →
      B.foldl mergeStep (pre ++ B.map (fun t => (t.id, g t))) =
        pre ++ B.map (fun t => (t.id, mergeTracks (g t) t)) := by
  intro B g
  induction B with
  | nil => intro pre _ _; simp
  | cons t B ih =>
    intro pre hnd hdisj
    have hnd' : (B.map AudioTrack.id).Nodup := (List.nodup_cons.mp (by simpa using hnd)).2
    have hhead : ¬ t.id ∈ B.map AudioTrack.id := (List.nodup_cons.mp (by simpa using hnd)).1
    have hpre_t : ∀ p ∈ pre, ¬ p.1 = t.id := fun p hp hk => hdisj p hp (by simp [hk])
    have hrest_t : ∀ p ∈ B.map (fun u => (u.id, g u)), ¬ p.1 = t.id := by
      intro p hp hk
      obtain ⟨u, hu, hpu⟩ := List.mem_map.mp hp
      apply hhead
      rw [← hk, ← hpu]
      exact List.mem_map.mpr ⟨u, hu, rfl⟩
    simp only [List.foldl_cons, List.map_cons]
    have hstep : mergeStep (pre ++ (t.id, g t) :: B.map (fun u => (u.id, g u))) t =
        (pre ++ [(t.id, mergeTracks (g t) t)]) ++ B.map (fun u => (u.id, g u)) := by
      unfold mergeStep
      rw [mapGet?_found pre _ t.id (g t) hpre_t]
      dsimp only
      rw [mapSet_found pre _ t.id (g t) (mergeTracks (g t) t) hpre_t hrest_t]
      simp
    rw [hstep, ih (pre ++ [(t.id, mergeTracks (g t) t)]) hnd' ?_]
    · simp
    · intro p hp
      rcases List.mem_append.mp hp with hp1 | hp2
      · intro hin
        exact hdisj p hp1 (by simp [hin])
      · intro hin
        have hpeq : p = (t.id, mergeTracks (g t) t) := by simpa using hp2
        rw [hpeq] at hin
        exact hhead hin

theorem mergeDetectionResults_self_form (A : List AudioTrack)
    (hA : (A.map AudioTrack.id).Nodup) :
    mergeDetectionResults [A] A = A.map (fun t => mergeTracks (exVersion t) t) := by
  unfold mergeDetectionResults
  rw [foldl_exPass A [] hA (by simp)]
  simp only [List.nil_append, List.foldl_cons, List.foldl_nil]
  have hm := foldl_mergePass A exVersion [] hA (by simp)
  simp only [List.nil_append] at hm
  rw [hm]
  simp [List.map_map, Function.comp]

/-- Claim C5: merging a candidate set A (with its distinct merge
identities) as the existing tracks with the single result list A
yields a track list of the same cardinality in which every track's
confidence is at least its original confidence (the existing copy is
reset to 0.5 and the merge takes the maximum, so each becomes
max 0.5 original). -/
theorem merge_self_cardinality_and_confidence (A : List AudioTrack)
    (hA : (A.map AudioTrack.id).Nodup) :
    (mergeDetectionResults [A] A).length = A.length ∧
    ∀ i : Nat, i < A.length →
      (A.getD i defaultAudioTrack).confidence ≤
        ((mergeDetectionResults [A] A).getD i defaultAudioTrack).confidence := by
  have hform := mergeDetectionResults_self_form A hA
  constructor
  · rw [hform, List.length_map]
  · intro i hi
    rw [hform,
      List.getD_eq_getElem (A.map fun t => mergeTracks (exVersion t) t) defaultAudioTrack
        (by simpa using hi),
      List.getD_eq_getElem A defaultAudioTrack hi]
    simp only [List.getElem_map]
    exact le_max_right _ _

/-- Witness for claim C5 at a concrete one-element candidate set. -/
theorem merge_self_cardinality_and_confidence_witness :
    (([resultTrack].map AudioTrack.id).Nodup) ∧
    ((mergeDetectionResults [[resultTrack]] [resultTrack]).length = [resultTrack].length ∧
      ∀ i : Nat, i < [resultTrack].length →
        ([resultTrack].getD i defaultAudioTrack).confidence ≤
          ((mergeDetectionResults [[resultTrack]] [resultTrack]).getD i
            defaultAudioTrack).confidence) :=
  ⟨by simp, merge_self_cardinality_and_confidence [resultTrack] (by simp)⟩
